import Mathlib

/-!
Verification development for the PostgreSQL-data compression pipeline
(`src/main.py`, `src/data_processing/data_reader.py`,
`src/conversion/parquet_converter.py`, `src/compression/zstd_compressor.py`).

Text is modelled as lists of characters; files as lists of lines; the
filesystem as a partial map from names to file data.  Each definition below
embeds one piece of the Python source, cited in its doc comment.
-/

/-- A piece of text (Python `str`), modelled as its list of characters. -/
abbrev Line := List Char

/-- A data row: the list of its fields, in order. -/
abbrev Row := List Line

/-- Join a list of strings with a separator.  This is the semantics of both
the text form of a delimited file (lines joined by a newline) and of one
rendered row (fields joined by the separator character). -/
def joinWith (sep : Line) : List Line → Line
  | [] => []
  | [x] => x
  | x :: y :: rest => x ++ sep ++ joinWith sep (y :: rest)

/-- Python `str.split(sep)` for a one-character separator: split at every
occurrence, keeping empty pieces; the empty string splits to one empty
field. -/
def pySplit (sep : Char) : Line → List Line
  | [] => [[]]
  | c :: rest =>
    if c = sep then [] :: pySplit sep rest
    else
      match pySplit sep rest with
      | [] => [[c]]
      | f :: fs => (c :: f) :: fs

/-- The characters Python `str.strip()` removes. -/
def isPySpace (c : Char) : Bool :=
  c == ' ' || c == '\t' || c == '\n' || c == '\r' || c == '\x0b' || c == '\x0c'

/-- Python `str.strip()`: drop whitespace from both ends. -/
def pyStrip (s : Line) : Line :=
  ((s.dropWhile isPySpace).reverse.dropWhile isPySpace).reverse

/-- Python `line.startswith("#")`. -/
def startsHash : Line → Bool
  | '#' :: _ => true
  | _ => false

/-- The separator implied by the file-type hint, per the leading
`if file_type == "tbl" ... elif ... else raise ValueError` block of
`read_file_data_in_chunks` (src/data_processing/data_reader.py lines 20-32,
src/main.py lines 416-429). -/
def hintSep (file_type : String) : Option Char :=
  if file_type = "tbl" then some '|'
  else if file_type = "csv" then some ','
  else if file_type = "txt" then some '\t'
  else none

/-- The separator actually used for field counting, from the line
`sep = '|' if file_path == 'tbl' else ','` that overwrites the hint
separator (src/data_processing/data_reader.py line 37, src/main.py
line 434).  Note it compares the full file path with the literal string
"tbl". -/
def countingSep (file_path : String) : Char :=
  if file_path = "tbl" then '|' else ','

/-- The preview-collection loop
`[f.readline() for _ in range(20) if f.readline()]`
(src/data_processing/data_reader.py line 42, src/main.py line 438).
The file is modelled as the list of lines still unread, each a non-empty
string carrying its terminator (except possibly the final line); `readline`
at end of file returns the empty string, which is falsy.  Each iteration
first evaluates the condition (one `readline`), and only if that line is
non-empty evaluates the element (a second `readline`), so lines are consumed
in pairs and only the second of each pair is kept; at end of file the kept
element may be the empty string. -/
def previewLoop : List Line → Nat → List Line
  | _, 0 => []
  | [], _ + 1 => []
  | [_], _ + 1 => [[]]
  | _ :: e :: rest, n + 1 => e :: previewLoop rest n

/-- Total occurrences of each candidate separator over the valid lines, and
the `Counter.most_common(1)` pick (src/data_processing/data_reader.py lines
62-68, src/main.py lines 453-459).  Candidates are scored by total character
count; `most_common` breaks ties by insertion order, which is the fixed
order pipe, comma, tab, so the fold keeps the earlier candidate unless a
later one scores strictly higher. -/
def bestSep (valid : List Line) : Char :=
  let score := fun (c : Char) => (valid.map (fun l => l.count c)).sum
  match ['|', ',', '\t'].foldl
      (fun best c =>
        match best with
        | none => some c
        | some b => if score c > score b then some c else some b) none with
  | some c => c
  | none => '|'

/-- `max(set(column_counts), key=column_counts.count)`
(src/data_processing/data_reader.py line 71, src/main.py line 464): the
most frequent count.  A Python set iterates in an unspecified order, so
this model (first-seen wins ties) is only appealed to where the mode is
unique. -/
def modalCount (counts : List Nat) : Nat :=
  match counts.dedup.foldl
      (fun best c =>
        match best with
        | none => some c
        | some b => if counts.count c > counts.count b then some c else some b) none with
  | some c => c
  | none => 0

/-- Synthetic column names `col_0 .. col_(n-1)`. -/
def colNames (n : Nat) : List String :=
  (List.range n).map (fun i => "col_" ++ toString i)

/-- The outcome of schema inference: the separator and column layout handed
to `pd.read_csv`. -/
structure InferredSchema where
  separator : Char
  column_count : Nat
  column_names : List String
deriving Repr, DecidableEq

/-- Embedding of the schema-inference phase of `read_file_data_in_chunks`
(src/data_processing/data_reader.py lines 20-76, src/main.py lines 416-467;
the two cited copies agree in everything modelled here).  Steps, in source
order: validate the type hint; consume the first line; overwrite the
separator with `countingSep`; collect the preview sample with
`previewLoop`; raise on an empty sample; keep the stripped non-comment
non-blank lines (the comment test runs on the unstripped line); count
fields per line (used only for a warning); score candidate separators
unconditionally; if the detected separator differs, switch to it and set
`num_columns` to the modal field count; otherwise `num_columns` is never
assigned, so the later `range(num_columns)` raises `NameError`.
`expected_columns` from the first line is computed but never used. -/
def read_file_data_in_chunks (file_path file_type : String)
    (fileLines : List Line) : Except String InferredSchema :=
  if (hintSep file_type).isNone then
    .error "ValueError: Unsupported file type"
  else
    let sep := countingSep file_path
    let preview := previewLoop (fileLines.drop 1) 20
    if preview.isEmpty then .error "ValueError: empty file"
    else
      let valid :=
        (preview.filter (fun l => !(pyStrip l).isEmpty && !startsHash l)).map pyStrip
      if valid.isEmpty then .error "ValueError: no valid data rows"
      else
        let detected := bestSep valid
        if detected = sep then
          .error "NameError: name num_columns is not defined"
        else
          let counts2 := valid.map (fun l => (pySplit detected l).length)
          let nc := modalCount counts2
          .ok ⟨detected, nc, colNames nc⟩

/-- A pyarrow schema: field names plus the schema-level key-value
metadata. -/
structure PSchema where
  fields : List String
  metadata : List (String × String)
deriving Repr, DecidableEq

/-- `pa.Schema.from_pandas(frame, preserve_index=False)`: fields from the
frame columns; the schema metadata holds only the automatic `pandas`
description blob. -/
def schemaFromPandas (cols : List String) : PSchema :=
  ⟨cols, [("pandas", "dataframe description")]⟩

/-- `schema.with_metadata(m)`: replaces the schema-level metadata map. -/
def withMetadata (s : PSchema) (m : List (String × String)) : PSchema :=
  ⟨s.fields, m⟩

/-- `metadata.get(key, default)` on the schema metadata map. -/
def metaGet (m : List (String × String)) (k dflt : String) : String :=
  match m.find? (fun kv => kv.fst == k) with
  | some kv => kv.snd
  | none => dflt

/-- The schema actually handed to `ParquetWriter` by
`convert_to_columnar_in_chunks` (src/conversion/parquet_converter.py lines
19-31, src/main.py lines 495-506): the first schema gets
`original_extension` attached via `with_metadata` (and per-string-field
compression hints), but after the columns are renamed the schema is rebuilt
with a second `Schema.from_pandas` call, and that rebuilt schema — without
the custom metadata — is the one written. -/
def writtenSchema (cols : List String) (file_type : String) : PSchema :=
  let schema0 := schemaFromPandas cols
  let _schema1 := withMetadata schema0 [("original_extension", file_type)]
  schemaFromPandas (colNames cols.length)

/-- `decompressmain` reading the extension back
(src/main.py lines 699-701):
`metadata.get(b'original_extension', b'tbl').decode()` against the schema
that `convert_to_columnar_in_chunks` wrote. -/
def readBackExtension (cols : List String) (ext : String) : String :=
  metaGet (writtenSchema cols ext).metadata "original_extension" "tbl"

/-- Row content written by `convert_to_columnar_in_chunks`
(src/conversion/parquet_converter.py lines 6-55): `next` on an empty chunk
iterator raises `StopIteration` (re-raised by the `except` clause);
otherwise every chunk is written as one row group, values unchanged, so the
container holds the concatenation of the chunks. -/
def convert_to_columnar_in_chunks (chunks : List (List Row)) :
    Except String (List Row) :=
  match chunks with
  | [] => .error "StopIteration"
  | _ => .ok chunks.flatten

/-- One rendered row of `df.to_csv(sep=sep, header=False, index=False)`:
the fields joined by the separator. -/
def renderRow (sep : Char) (r : Row) : Line :=
  joinWith [sep] r

/-- `df.to_csv(sep=sep, header=False, index=False, lineterminator='\n')`
for one batch: the rendered rows joined by and terminated with a newline;
an empty frame renders to the empty string. -/
def toCsvBatch (sep : Char) (rows : List Row) : Line :=
  match rows with
  | [] => []
  | _ => joinWith ['\n'] (rows.map (renderRow sep)) ++ ['\n']

/-- The character test used by the newline strip. -/
def isNl (c : Char) : Bool := c == '\n'

/-- Python `str.strip('\n')`: removes every leading and trailing newline
character (not merely one trailing newline). -/
def pyStripNl (s : Line) : Line :=
  ((s.dropWhile isNl).reverse.dropWhile isNl).reverse

/-- The batch-writing loop of `convert_parquet_to_text_in_chunks`
(src/conversion/parquet_converter.py lines 80-95, src/main.py lines
607-621): for each batch, write a single newline first unless this is the
first batch, then write `df_string.strip('\n')`; `is_first_chunk` becomes
false after every batch. -/
def writeBatches (sep : Char) : Bool → List (List Row) → Line
  | _, [] => []
  | is_first, b :: bs =>
      (if is_first then [] else ['\n']) ++ pyStripNl (toCsvBatch sep b)
        ++ writeBatches sep false bs

/-- The target-type separator of `convert_parquet_to_text_in_chunks`
(src/conversion/parquet_converter.py lines 69-77). -/
def sepForType (file_type : String) : Except String Char :=
  if file_type = "tbl" then .ok '|'
  else if file_type = "csv" then .ok ','
  else if file_type = "txt" then .ok '\t'
  else .error "ValueError: unsupported file type"

/-- Split a row list into consecutive batches of `n` rows, with explicit
fuel for structural recursion (the fuel is always instantiated with the
list length, which suffices). -/
def chunksOfFuel (n : Nat) : Nat → List α → List (List α)
  | 0, _ => []
  | _ + 1, [] => []
  | fuel + 1, x :: rest =>
      (x :: rest.take (n - 1)) :: chunksOfFuel n fuel (rest.drop (n - 1))

/-- Consecutive batches of `n` rows, as produced by
`parquet_file.iter_batches(batch_size=n)` over the stored rows and by
`pd.read_csv(..., chunksize=n)` over the parsed rows. -/
def chunksOf (n : Nat) (xs : List α) : List (List α) :=
  chunksOfFuel n xs.length xs

/-- Embedding of `convert_parquet_to_text_in_chunks`
(src/conversion/parquet_converter.py lines 58-99): resolve the separator
from the target type (ValueError otherwise), iterate the container in
batches of 50000 rows, and run the batch-writing loop. -/
def convert_parquet_to_text_in_chunks (container : List Row)
    (file_type : String) : Except String Line :=
  match sepForType file_type with
  | .error e => .error e
  | .ok sep => .ok (writeBatches sep true (chunksOf 50000 container))

/-- The default NA tokens of `pd.read_csv` (its default `na_values`): a
field equal to one of these parses to NaN.  The reader leaves `na_filter`
and `keep_default_na` at their defaults, and `dtype='category'` does not
disable the conversion. -/
def naTokens : List Line :=
  (["", "#N/A", "#N/A N/A", "#NA", "-1.#IND", "-1.#QNAN", "-NaN", "-nan",
    "1.#IND", "1.#QNAN", "<NA>", "N/A", "NA", "NULL", "NaN", "None", "n/a",
    "nan", "null"]).map String.toList

/-- One parsed cell, represented by the string `df.to_csv` will write for
it on export: a field matching a default NA token parses to NaN — stored as
a null in the columnar container — which `to_csv` re-renders as the empty
string (default `na_rep`); every other field is kept verbatim
(`dtype='category'` keeps values as strings).  The empty field is itself an
NA token and re-renders empty, so it is a fixed point. -/
def parseField (f : Line) : Line :=
  if f ∈ naTokens then [] else f

/-- One parsed row of `pd.read_csv(..., names=column_names)` against `n`
column names: every field undergoes NA conversion, and a row with fewer
than `n` fields is padded with trailing NaN cells (rendered empty on
export).  A row with more than `n` fields is outside the modelled fragment
(`read_csv` shifts its extra leading fields into the frame index); the
round-trip theorem excludes that case by hypothesis. -/
def parseRow (n : Nat) (sep : Char) (l : Line) : Row :=
  let fields := (pySplit sep l).map parseField
  fields.take n ++ List.replicate (n - fields.length) []

/-- The row extraction performed by `pd.read_csv(file_path, sep=sep,
header=None, names=column_names, dtype='category', quotechar='"',
escapechar='\\', engine='python')` on the quote-free, escape-free fragment
of the dialect: split the text into lines, skip blank lines
(`skip_blank_lines` default), split each line at the separator, and parse
each row against the `n` inferred column names with NA conversion and NaN
padding. -/
def parseRows (n : Nat) (sep : Char) (text : Line) : List Row :=
  ((pySplit '\n' text).filter (fun l => !l.isEmpty)).map (parseRow n sep)

/-- The forward conversion of one file, at row granularity: parse against
the `n` inferred column names in chunks of 50000 rows and write them to the
columnar container. -/
def forwardContainer (n : Nat) (sep : Char) (text : Line) :
    Except String (List Row) :=
  convert_to_columnar_in_chunks (chunksOf 50000 (parseRows n sep text))

/-- Contents of one file in the modelled filesystem: either plain bytes or
a zstd archive.  An archive records the byte payload its frames decode to
and whether the final frame is complete; truncating an archive mid-frame
keeps a decodable prefix of the payload and loses completeness. -/
inductive FileData where
  | bytes (bs : List Nat)
  | archive (payload : List Nat) (complete : Bool)
deriving Repr, DecidableEq

/-- The filesystem: a map from file names to file data. -/
abbrev FS := String → Option FileData

/-- Create or overwrite a file. -/
def fsSet (fs : FS) (name : String) (v : FileData) : FS :=
  fun m => if m = name then some v else fs m

/-- The raw bytes read from a file (for archives the model identifies the
opaque archive bytes with the payload; no claim depends on archive byte
layout). -/
def contentBytes : FileData → List Nat
  | .bytes bs => bs
  | .archive p _ => p

/-- `os.path.getsize`.  An archive occupies its payload plus a fixed
framing overhead, so compressing even an empty input yields a non-empty
archive file. -/
def fileSize : FileData → Nat
  | .bytes bs => bs.length
  | .archive p _ => p.length + 13

/-- Truncating a file to half its byte length.  For an archive this keeps a
decodable prefix of the payload and cuts the final frame short. -/
def truncateHalf : FileData → FileData
  | .bytes bs => .bytes (bs.take (bs.length / 2))
  | .archive p _ => .archive (p.take (p.length / 2)) false

/-- Embedding of `decompress_with_zstd`
(src/compression/zstd_compressor.py lines 43-68, src/main.py lines
565-584): opening the input fails first if it is missing; otherwise the
output file is created immediately (`open(output_file, "wb")`), the stream
reader writes the decodable payload into it, and a truncated or corrupt
stream raises `ZstdError` after that.  The `except` clause logs and
re-raises; nothing removes the output file, so it remains in the
filesystem in every failure case. -/
def decompress_with_zstd (fs : FS) (compressed_file output_file : String) :
    Except String Unit × FS :=
  match fs compressed_file with
  | none => (.error "FileNotFoundError", fs)
  | some (.bytes _) =>
      (.error "ZstdError: zstd decompress error",
       fsSet fs output_file (.bytes []))
  | some (.archive p complete) =>
      let fs1 := fsSet fs output_file (.bytes p)
      if complete then (.ok (), fs1)
      else (.error "ZstdError: zstd decompress error: Data corruption detected", fs1)

/-- The aggregate counters of `compression_stats` (src/main.py lines
368-374), restricted to the fields `compress_with_zstd` touches. -/
structure CompressionStats where
  total_original : Nat
  total_compressed : Nat
  file_count : Nat
deriving Repr, DecidableEq

/-- Embedding of the module-level `compress_with_zstd`
(src/compression/zstd_compressor.py lines 7-40): stream the input into a
new archive file, then measure both files, then compute
`ratio = (1 - compressed_size / original_size) * 100`, which raises
`ZeroDivisionError` when the input file is empty — after the output archive
already exists on disk. -/
def compress_with_zstd (fs : FS) (input_file output_file : String) :
    Except String (Nat × Nat) × FS :=
  match fs input_file with
  | none => (.error "FileNotFoundError", fs)
  | some fd =>
      let fs1 := fsSet fs output_file (.archive (contentBytes fd) true)
      let original_size := match fs1 input_file with
        | some d => fileSize d
        | none => 0
      let compressed_size := match fs1 output_file with
        | some d => fileSize d
        | none => 0
      if original_size = 0 then
        (.error "ZeroDivisionError: division by zero", fs1)
      else
        (.ok (original_size, compressed_size), fs1)

/-- Embedding of the `compress_with_zstd` defined in src/main.py lines
532-562: identical streaming and sizing, but the three statistics counters
are incremented before the ratio line, so on an empty input the counters
are already updated when `ZeroDivisionError` is raised. -/
def compress_with_zstd_main (fs : FS) (stats : CompressionStats)
    (input_file output_file : String) :
    Except String Unit × FS × CompressionStats :=
  match fs input_file with
  | none => (.error "FileNotFoundError", fs, stats)
  | some fd =>
      let fs1 := fsSet fs output_file (.archive (contentBytes fd) true)
      let original_size := match fs1 input_file with
        | some d => fileSize d
        | none => 0
      let compressed_size := match fs1 output_file with
        | some d => fileSize d
        | none => 0
      let stats1 : CompressionStats :=
        ⟨stats.total_original + original_size,
         stats.total_compressed + compressed_size,
         stats.file_count + 1⟩
      if original_size = 0 then
        (.error "ZeroDivisionError: division by zero", fs1, stats1)
      else
        (.ok (), fs1, stats1)

/-- `os.path.splitext` for plain file names whose stem is non-empty and
contains no path separator: split before the last dot; the extension keeps
its dot; a dotless name has extension empty. -/
def splitExt (s : List Char) : List Char × List Char :=
  let r := s.reverse
  let e := r.takeWhile (fun c => !(c == '.'))
  if e.length = r.length then (s, [])
  else ((r.drop (e.length + 1)).reverse, '.' :: e.reverse)

/-- The archive name computed by `compressmain` (src/main.py lines
656-666): `base_name = os.path.splitext(file_name)[0]` followed by
`f"(base_name).zstd"`, so the original extension is stripped before the
archive suffix is appended. -/
def compressedName (file_name : List Char) : List Char :=
  (splitExt file_name).fst ++ ".zstd".toList

/-- The name components `decompressmain` parses out of an archive file name
(src/main.py lines 689-691): strip the archive suffix, then split again
into stem and original extension (without its dot). -/
def decompressParsedNames (compressed_file_name : List Char) :
    List Char × List Char :=
  let base_name := (splitExt compressed_file_name).fst
  ((splitExt base_name).fst, (splitExt base_name).snd.drop 1)

/-- What the body of one pipeline step does for a given file: returns
normally or raises. -/
inductive StepOutcome where
  | ok
  | raises (msg : String)
deriving Repr, DecidableEq

/-- The per-file behaviour of the three forward steps. -/
structure FileRun where
  readStep : StepOutcome
  convertStep : StepOutcome
  compressStep : StepOutcome
deriving Repr, DecidableEq

/-- A step body as an exception-propagating computation. -/
def stepResult : StepOutcome → Except String Unit
  | .ok => .ok ()
  | .raises m => .error m

/-- Exception behaviour of the `convert_to_columnar_in_chunks` defined in
src/main.py lines 486-529: the `except` clause logs
`"columnar conversion failed"` and falls through without `raise`, so the
caller observes a normal return even when the body raised.  Returns the
result the caller sees together with the log entries written. -/
def convert_to_columnar_main (o : StepOutcome) :
    Except String Unit × List String :=
  match o with
  | .ok => (.ok (), [])
  | .raises m => (.ok (), ["columnar conversion failed: " ++ m])

/-- Exception behaviour of the module copy
(src/conversion/parquet_converter.py lines 52-54): logs and re-raises. -/
def convert_to_columnar_module (o : StepOutcome) :
    Except String Unit × List String :=
  match o with
  | .ok => (.ok (), [])
  | .raises m => (.error m, ["columnar conversion failed: " ++ m])

/-- The per-file `try` block of `compressmain` (src/main.py lines 654-678),
returning the list of steps that executed and the log entries written.
Read errors propagate out of `read_file_data_in_chunks` and are caught by
the outer handler; conversion runs the swallowing main-module variant; a
compression error is caught by the outer handler; `os.remove(temp_parquet)`
runs only after a successful compression. -/
def compressmainFile (r : FileRun) (file_name : String) :
    List String × List String :=
  match stepResult r.readStep with
  | .error e =>
      (["read"],
       ["parse failed: " ++ e,
        "file processing failed: " ++ file_name ++ " - " ++ e])
  | .ok _ =>
    let conv := convert_to_columnar_main r.convertStep
    match conv.fst with
    | .error e =>
        (["read", "convert"],
         conv.snd ++ ["file processing failed: " ++ file_name ++ " - " ++ e])
    | .ok _ =>
      match stepResult r.compressStep with
      | .error e =>
          (["read", "convert", "compress"],
           conv.snd ++ ["compression failed: " ++ e,
                        "file processing failed: " ++ file_name ++ " - " ++ e])
      | .ok _ =>
          (["read", "convert", "compress", "remove temp parquet"], conv.snd)

/-! Concrete inputs used by the claim theorems. -/

/-- A five-line comma-separated file whose valid sample lines all have two
fields under the default separator. -/
def c3Lines : List Line :=
  ["a,b\n", "c,d\n", "e,f\n", "g,h\n", "i,j\n"].map String.toList

/-- A five-line pipe-separated file submitted with the txt type hint. -/
def c4Lines : List Line :=
  ["a|b\n", "c|d\n", "e|f\n", "g|h\n", "i|j\n"].map String.toList

/-- A five-line file with distinguishable lines. -/
def c9Lines : List Line :=
  ["L1\n", "L2\n", "L3\n", "L4\n", "L5\n"].map String.toList

/-- The three-line pipe-separated scenario file from the specification. -/
def c1Lines : List Line :=
  ["a|b|c", "1|2|3", "4|5|6"].map String.toList

/-- A filesystem holding one archive truncated to half its byte length. -/
def c6FS : FS := fun n =>
  if n = "customer.zstd" then some (truncateHalf (.archive [10, 20, 30, 40] true))
  else none

/-- A filesystem holding one zero-byte input file. -/
def c10FS : FS := fun n =>
  if n = "lineitem.parquet" then some (.bytes []) else none

/-! Helper lemmas about the text model. -/

theorem joinWith_cons₂ (s x y : Line) (rest : List Line) :
    joinWith s (x :: y :: rest) = x ++ s ++ joinWith s (y :: rest) := rfl

theorem joinWith_cons_head (s : Line) (c : Char) (f : Line) (fs : List Line) :
    joinWith s ((c :: f) :: fs) = c :: joinWith s (f :: fs) := by
  cases fs with
  | nil => rfl
  | cons g gs => simp [joinWith, List.cons_append]

theorem pySplit_ne_nil (sep : Char) (l : Line) : pySplit sep l ≠ [] := by
  induction l with
  | nil => simp [pySplit]
  | cons c rest ih =>
    simp only [pySplit]
    split
    · simp
    · cases h : pySplit sep rest with
      | nil => exact absurd h ih
      | cons f fs => simp [h]

theorem joinWith_pySplit (sep : Char) (l : Line) :
    joinWith [sep] (pySplit sep l) = l := by
  induction l with
  | nil => rfl
  | cons c rest ih =>
    by_cases hc : c = sep
    · subst hc
      have hsplit : pySplit c (c :: rest) = [] :: pySplit c rest := by
        simp [pySplit]
      rw [hsplit]
      cases h : pySplit c rest with
      | nil => exact absurd h (pySplit_ne_nil c rest)
      | cons f fs =>
        rw [h] at ih
        rw [joinWith_cons₂]
        simpa using ih
    · simp only [pySplit, if_neg hc]
      cases h : pySplit sep rest with
      | nil => exact absurd h (pySplit_ne_nil sep rest)
      | cons f fs =>
        rw [h] at ih
        rw [joinWith_cons_head]
        exact congrArg (c :: ·) ih

theorem pySplit_single (sep : Char) (p : Line) (h : sep ∉ p) :
    pySplit sep p = [p] := by
  induction p with
  | nil => rfl
  | cons c rest ih =>
    have hc : c ≠ sep := fun hcs => h (hcs ▸ List.mem_cons_self c rest)
    have hrest : sep ∉ rest := fun hm => h (List.mem_cons_of_mem c hm)
    simp only [pySplit, if_neg hc, ih hrest]

theorem pySplit_append_sep (sep : Char) (p rest : Line) (h : sep ∉ p) :
    pySplit sep (p ++ sep :: rest) = p :: pySplit sep rest := by
  induction p with
  | nil => simp [pySplit]
  | cons c p' ih =>
    have hc : c ≠ sep := fun hcs => h (hcs ▸ List.mem_cons_self c p')
    have hp' : sep ∉ p' := fun hm => h (List.mem_cons_of_mem c hm)
    rw [List.cons_append]
    simp only [pySplit, if_neg hc, List.append_eq]
    rw [ih hp']

theorem pySplit_joinWith (sep : Char) (parts : List Line) (hne : parts ≠ [])
    (h : ∀ p ∈ parts, sep ∉ p) :
    pySplit sep (joinWith [sep] parts) = parts := by
  induction parts with
  | nil => exact absurd rfl hne
  | cons p ps ih =>
    cases ps with
    | nil =>
      exact pySplit_single sep p (h p (List.mem_cons_self p []))
    | cons q rest =>
      rw [joinWith_cons₂]
      have hp : sep ∉ p := h p (List.mem_cons_self p (q :: rest))
      have hrest : ∀ x ∈ q :: rest, sep ∉ x :=
        fun x hx => h x (List.mem_cons_of_mem p hx)
      rw [List.append_assoc, List.singleton_append, pySplit_append_sep sep p _ hp,
        ih (by simp) hrest]

theorem joinWith_append (s : Line) (xs ys : List Line) (hxs : xs ≠ [])
    (hys : ys ≠ []) :
    joinWith s (xs ++ ys) = joinWith s xs ++ s ++ joinWith s ys := by
  induction xs with
  | nil => exact absurd rfl hxs
  | cons x xs' ih =>
    cases xs' with
    | nil =>
      cases ys with
      | nil => exact absurd rfl hys
      | cons y ys' => simp [joinWith]
    | cons x2 xs2 =>
      have ih' := ih (by simp)
      rw [List.cons_append, List.cons_append, joinWith_cons₂, ← List.cons_append,
        ih', joinWith_cons₂]
      simp [List.append_assoc]

theorem joinWith_flattenMap (s : Line) (bs : List (List Line))
    (h : ∀ b ∈ bs, b ≠ []) :
    joinWith s (bs.map (joinWith s)) = joinWith s bs.flatten := by
  induction bs with
  | nil => rfl
  | cons b bs' ih =>
    cases bs' with
    | nil => simp [joinWith]
    | cons b2 rest =>
      have hb : b ≠ [] := h b (List.mem_cons_self b (b2 :: rest))
      have hrest : ∀ x ∈ b2 :: rest, x ≠ [] :=
        fun x hx => h x (List.mem_cons_of_mem b hx)
      have hflat : (b2 :: rest).flatten ≠ [] := by
        rw [List.flatten_ne_nil_iff]
        exact ⟨b2, List.mem_cons_self b2 rest, hrest b2 (List.mem_cons_self b2 rest)⟩
      rw [List.map_cons, List.map_cons, joinWith_cons₂, ← List.map_cons, ih hrest]
      have hfc : (b :: b2 :: rest).flatten = b ++ (b2 :: rest).flatten := rfl
      rw [hfc, joinWith_append s b _ hb hflat]

theorem mem_of_head?_eq {l : Line} {a : Char} (h : l.head? = some a) : a ∈ l := by
  cases l with
  | nil => simp at h
  | cons c cs =>
    simp only [List.head?_cons, Option.some.injEq] at h
    exact h ▸ List.mem_cons_self c cs

theorem mem_of_getLast?_eq {l : Line} {a : Char} (h : l.getLast? = some a) :
    a ∈ l := by
  rw [← List.head?_reverse] at h
  exact List.mem_reverse.mp (mem_of_head?_eq h)

theorem count_joinWith_nl (parts : List Line) (hne : parts ≠ [])
    (h : ∀ p ∈ parts, p.count '\n' = 0) :
    (joinWith ['\n'] parts).count '\n' = parts.length - 1 := by
  induction parts with
  | nil => exact absurd rfl hne
  | cons p ps ih =>
    cases ps with
    | nil =>
      show (joinWith ['\n'] [p]).count '\n' = 0
      exact h p (List.mem_cons_self p [])
    | cons q rest =>
      have hp := h p (List.mem_cons_self p (q :: rest))
      have hrest : ∀ x ∈ q :: rest, x.count '\n' = 0 :=
        fun x hx => h x (List.mem_cons_of_mem p hx)
      rw [joinWith_cons₂, List.count_append, List.count_append, hp,
        ih (by simp) hrest]
      simp only [List.length_cons, List.count_singleton]
      simp
      omega

theorem joinWith_head?_nonNl (parts : List Line) (hne : parts ≠ [])
    (h : ∀ p ∈ parts, p ≠ [] ∧ p.count '\n' = 0) :
    (joinWith ['\n'] parts).head? ≠ some '\n' := by
  cases parts with
  | nil => exact absurd rfl hne
  | cons p ps =>
    have hp := h p (List.mem_cons_self p ps)
    have hhead : (joinWith ['\n'] (p :: ps)).head? = p.head? := by
      cases ps with
      | nil => rfl
      | cons q rest =>
        rw [joinWith_cons₂]
        cases p with
        | nil => exact absurd rfl hp.1
        | cons c cs => simp
    rw [hhead]
    intro hcontra
    have : '\n' ∈ p := mem_of_head?_eq hcontra
    exact absurd (List.count_eq_zero.mp hp.2) (fun hn => hn this)

theorem joinWith_ne_nil (s : Line) (parts : List Line) (hne : parts ≠ [])
    (h : ∀ p ∈ parts, p ≠ []) :
    joinWith s parts ≠ [] := by
  cases parts with
  | nil => exact absurd rfl hne
  | cons p ps =>
    cases ps with
    | nil => exact h p (List.mem_cons_self p [])
    | cons q rest =>
      rw [joinWith_cons₂]
      exact List.append_ne_nil_of_left_ne_nil
        (List.append_ne_nil_of_left_ne_nil
          (h p (List.mem_cons_self p (q :: rest))) s) _

theorem joinWith_getLast?_nonNl (parts : List Line) (hne : parts ≠ [])
    (h : ∀ p ∈ parts, p ≠ [] ∧ p.count '\n' = 0) :
    (joinWith ['\n'] parts).getLast? ≠ some '\n' := by
  induction parts with
  | nil => exact absurd rfl hne
  | cons p ps ih =>
    cases ps with
    | nil =>
      show (joinWith ['\n'] [p]).getLast? ≠ some '\n'
      intro hcontra
      have hp := h p (List.mem_cons_self p [])
      have : '\n' ∈ p := mem_of_getLast?_eq hcontra
      exact absurd (List.count_eq_zero.mp hp.2) (fun hn => hn this)
    | cons q rest =>
      have hrest : ∀ x ∈ q :: rest, x ≠ [] ∧ x.count '\n' = 0 :=
        fun x hx => h x (List.mem_cons_of_mem p hx)
      have hjoin : joinWith ['\n'] (q :: rest) ≠ [] :=
        joinWith_ne_nil ['\n'] (q :: rest) (by simp) (fun x hx => (hrest x hx).1)
      rw [joinWith_cons₂, List.getLast?_append]
      cases hj : (joinWith ['\n'] (q :: rest)).getLast? with
      | none => exact absurd (List.getLast?_eq_none_iff.mp hj) hjoin
      | some a =>
        have := ih (by simp) hrest
        rw [hj] at this
        simpa [hj] using this

theorem dropWhile_eq_self_of_head {p : Char → Bool} {l : Line}
    (h : ∀ c, l.head? = some c → p c = false) : l.dropWhile p = l := by
  cases l with
  | nil => rfl
  | cons a l => rw [List.dropWhile_cons, if_neg (by simp [h a rfl])]

theorem pyStripNl_append_nl (s : Line) (h1 : s.head? ≠ some '\n')
    (h2 : s.getLast? ≠ some '\n') :
    pyStripNl (s ++ ['\n']) = s := by
  cases s with
  | nil => rfl
  | cons c cs =>
    have hcne : c ≠ '\n' := by
      intro heq
      exact h1 (by simp [heq])
    have hc : isNl c = false := by simp [isNl, hcne]
    unfold pyStripNl
    rw [List.cons_append, List.dropWhile_cons, if_neg (by simp [hc])]
    have hrev : (c :: (cs ++ ['\n'])).reverse = '\n' :: (c :: cs).reverse := by
      simp
    rw [hrev, List.dropWhile_cons, if_pos (by simp [isNl])]
    have hdone : (c :: cs).reverse.dropWhile isNl = (c :: cs).reverse := by
      apply dropWhile_eq_self_of_head
      intro d hd
      rw [List.head?_reverse] at hd
      have hdne : d ≠ '\n' := by
        intro hdeq
        exact h2 (hdeq ▸ hd)
      simp [isNl, hdne]
    rw [hdone, List.reverse_reverse]

theorem pyStripNl_toCsvBatch (sep : Char) (b : List Row) (hb : b ≠ [])
    (hr : ∀ r ∈ b, renderRow sep r ≠ [] ∧ (renderRow sep r).count '\n' = 0) :
    pyStripNl (toCsvBatch sep b) = joinWith ['\n'] (b.map (renderRow sep)) := by
  have hparts : ∀ p ∈ b.map (renderRow sep), p ≠ [] ∧ p.count '\n' = 0 := by
    intro p hp
    obtain ⟨r, hrb, hrp⟩ := List.mem_map.mp hp
    exact hrp ▸ hr r hrb
  have hpne : b.map (renderRow sep) ≠ [] := by
    simpa [List.map_eq_nil_iff] using hb
  have hcsv : toCsvBatch sep b = joinWith ['\n'] (b.map (renderRow sep)) ++ ['\n'] := by
    cases b with
    | nil => exact absurd rfl hb
    | cons r rs => rfl
  rw [hcsv]
  exact pyStripNl_append_nl _ (joinWith_head?_nonNl _ hpne hparts)
    (joinWith_getLast?_nonNl _ hpne hparts)

theorem writeBatches_false_eq (sep : Char) (bs : List (List Row)) (hbs : bs ≠ []) :
    writeBatches sep false bs
      = '\n' :: joinWith ['\n'] (bs.map (fun b => pyStripNl (toCsvBatch sep b))) := by
  induction bs with
  | nil => exact absurd rfl hbs
  | cons b bs' ih =>
    cases bs' with
    | nil => simp [writeBatches, joinWith]
    | cons b2 rest =>
      show ['\n'] ++ pyStripNl (toCsvBatch sep b) ++ writeBatches sep false (b2 :: rest)
          = '\n' :: joinWith ['\n']
              (pyStripNl (toCsvBatch sep b) :: pyStripNl (toCsvBatch sep b2)
                :: rest.map (fun x => pyStripNl (toCsvBatch sep x)))
      rw [ih (by simp)]
      simp [joinWith_cons₂, List.append_assoc]

theorem writeBatches_true_eq (sep : Char) (bs : List (List Row)) :
    writeBatches sep true bs
      = joinWith ['\n'] (bs.map (fun b => pyStripNl (toCsvBatch sep b))) := by
  cases bs with
  | nil => rfl
  | cons b bs' =>
    cases bs' with
    | nil => simp [writeBatches, joinWith]
    | cons b2 rest =>
      show [] ++ pyStripNl (toCsvBatch sep b) ++ writeBatches sep false (b2 :: rest)
          = joinWith ['\n']
              (pyStripNl (toCsvBatch sep b) :: pyStripNl (toCsvBatch sep b2)
                :: rest.map (fun x => pyStripNl (toCsvBatch sep x)))
      rw [writeBatches_false_eq sep (b2 :: rest) (by simp)]
      simp [joinWith_cons₂, List.append_assoc]

theorem writeBatches_good (sep : Char) (bs : List (List Row))
    (hb : ∀ b ∈ bs, b ≠ [])
    (hr : ∀ b ∈ bs, ∀ r ∈ b, renderRow sep r ≠ [] ∧ (renderRow sep r).count '\n' = 0) :
    writeBatches sep true bs = joinWith ['\n'] (bs.flatten.map (renderRow sep)) := by
  rw [writeBatches_true_eq]
  have hmap : bs.map (fun b => pyStripNl (toCsvBatch sep b))
      = bs.map (fun b => joinWith ['\n'] (b.map (renderRow sep))) :=
    List.map_congr_left (fun b hbmem =>
      pyStripNl_toCsvBatch sep b (hb b hbmem) (hr b hbmem))
  rw [hmap]
  have hmap2 : bs.map (fun b => joinWith ['\n'] (b.map (renderRow sep)))
      = (bs.map (fun b => b.map (renderRow sep))).map (joinWith ['\n']) := by
    rw [List.map_map]
    rfl
  rw [hmap2, joinWith_flattenMap ['\n'] _ (by
    intro x hx
    obtain ⟨b, hbmem, hbx⟩ := List.mem_map.mp hx
    rw [← hbx]
    simpa [List.map_eq_nil_iff] using hb b hbmem)]
  rw [← List.map_flatten]

theorem goodRows_flatten_map (sep : Char) (bs : List (List Row))
    (hr : ∀ b ∈ bs, ∀ r ∈ b, renderRow sep r ≠ [] ∧ (renderRow sep r).count '\n' = 0) :
    ∀ p ∈ bs.flatten.map (renderRow sep), p ≠ [] ∧ p.count '\n' = 0 := by
  intro p hp
  obtain ⟨r, hrmem, hrp⟩ := List.mem_map.mp hp
  obtain ⟨b, hbmem, hrb⟩ := List.mem_flatten.mp hrmem
  exact hrp ▸ hr b hbmem r hrb

theorem chunksOfFuel_flatten (n : Nat) :
    ∀ (fuel : Nat) (xs : List α), xs.length ≤ fuel →
      (chunksOfFuel n fuel xs).flatten = xs := by
  intro fuel
  induction fuel with
  | zero =>
    intro xs hlen
    have : xs = [] := List.length_eq_zero.mp (Nat.le_zero.mp hlen)
    subst this
    rfl
  | succ fuel ih =>
    intro xs hlen
    cases xs with
    | nil => rfl
    | cons x rest =>
      show (x :: rest.take (n - 1)) ++ (chunksOfFuel n fuel (rest.drop (n - 1))).flatten
          = x :: rest
      rw [ih (rest.drop (n - 1)) (by
        rw [List.length_drop]
        have : rest.length ≤ fuel := by
          simpa [List.length_cons, Nat.succ_le_succ_iff] using hlen
        omega)]
      rw [List.cons_append, List.take_append_drop]

theorem chunksOfFuel_mem_ne_nil (n : Nat) :
    ∀ (fuel : Nat) (xs : List α) (b : List α),
      b ∈ chunksOfFuel n fuel xs → b ≠ [] := by
  intro fuel
  induction fuel with
  | zero =>
    intro xs b hmem
    simp [chunksOfFuel] at hmem
  | succ fuel ih =>
    intro xs b hmem
    cases xs with
    | nil => simp [chunksOfFuel] at hmem
    | cons x rest =>
      rcases List.mem_cons.mp hmem with h | h
      · subst h; simp
      · exact ih _ b h

theorem chunksOfFuel_mem_mem (n : Nat) :
    ∀ (fuel : Nat) (xs : List α) (b : List α) (r : α),
      b ∈ chunksOfFuel n fuel xs → r ∈ b → r ∈ xs := by
  intro fuel
  induction fuel with
  | zero =>
    intro xs b r hmem
    simp [chunksOfFuel] at hmem
  | succ fuel ih =>
    intro xs b r hmem hr
    cases xs with
    | nil => simp [chunksOfFuel] at hmem
    | cons x rest =>
      rcases List.mem_cons.mp hmem with h | h
      · subst h
        rcases List.mem_cons.mp hr with h2 | h2
        · exact h2 ▸ List.mem_cons_self x rest
        · exact List.mem_cons_of_mem x (List.take_subset _ _ h2)
      · have := ih _ b r h hr
        exact List.mem_cons_of_mem x (List.drop_subset _ _ this)

theorem chunksOf_flatten (n : Nat) (xs : List α) : (chunksOf n xs).flatten = xs :=
  chunksOfFuel_flatten n xs.length xs (Nat.le_refl _)

theorem chunksOf_ne_nil (n : Nat) (xs : List α) (hxs : xs ≠ []) :
    chunksOf n xs ≠ [] := by
  cases xs with
  | nil => exact absurd rfl hxs
  | cons x rest => simp [chunksOf, chunksOfFuel]

/-! Claim theorems. -/

/-- C2: the claim says the `original_extension` metadata key read back after
the reverse pipeline equals the original ext for every ext in tbl, csv, txt.
In the code the schema carrying that key is discarded when the schema is
rebuilt from the renamed frame, so the written container has no
`original_extension` key and `decompressmain` always reads the default
"tbl": for csv and txt inputs the read-back extension is "tbl", not the
original extension. -/
theorem c2_metadata_dropped_reads_back_tbl :
    readBackExtension ["c0", "c1"] "csv" = "tbl" ∧
    readBackExtension ["c0", "c1"] "txt" = "tbl" ∧
    (writtenSchema ["c0", "c1"] "csv").metadata.find?
        (fun kv => kv.fst == "original_extension") = none ∧
    "tbl" ≠ "csv" :=
  ⟨rfl, rfl, by decide, by decide⟩

/-- C3: the claim says that when all valid sample lines agree on the field
count under the default separator, inference succeeds with that count and
that separator.  On such a file the detected candidate equals the counting
separator, the branch that assigns `num_columns` is skipped, and the later
`range(num_columns)` raises `NameError`: inference fails instead of
succeeding.  Evaluated on a five-line csv file whose sampled lines all have
two comma-separated fields. -/
theorem c3_agreeing_sample_raises_name_error :
    read_file_data_in_chunks "data/a.csv" "csv" c3Lines
      = .error "NameError: name num_columns is not defined" := rfl

/-- C4 counterexample: the claim says field counting uses the type-hint
separator (tab for txt).  For the path "data/a.txt" with hint txt the
counting separator is the comma, because the overwrite line compares the
file path with the literal "tbl"; on a pipe-separated file the inference
then returns separator pipe and two columns, while counting under the
claimed tab separator would find one column and keep tab. -/
theorem c4_counterexample :
    countingSep "data/a.txt" = ',' ∧
    hintSep "txt" = some '\t' ∧
    (',' : Char) ≠ '\t' ∧
    read_file_data_in_chunks "data/a.txt" "txt" c4Lines
      = .ok ⟨'|', 2, ["col_0", "col_1"]⟩ :=
  ⟨by decide, by decide, by decide, rfl⟩

/-- C4 (amended): the type-hint separator is assigned but immediately
overwritten before field counting by
`sep = '|' if file_path == 'tbl' else ','`, so the hint only validates the
type string: for any two valid type hints the whole inference result is
identical — the hint separator never drives counting or downstream
parsing. -/
theorem c4_inference_ignores_type_hint (path t1 t2 : String)
    (lines : List Line) (h1 : (hintSep t1).isSome) (h2 : (hintSep t2).isSome) :
    read_file_data_in_chunks path t1 lines
      = read_file_data_in_chunks path t2 lines := by
  cases ht1 : hintSep t1 with
  | none => rw [ht1] at h1; simp at h1
  | some a =>
    cases ht2 : hintSep t2 with
    | none => rw [ht2] at h2; simp at h2
    | some b => simp [read_file_data_in_chunks, ht1, ht2]

/-- Witness for the amended C4 theorem at a concrete file: the txt hint and
the csv hint produce the same inference result on the same pipe-separated
file. -/
theorem c4_witness :
    read_file_data_in_chunks "data/a.txt" "txt" c4Lines
      = read_file_data_in_chunks "data/a.txt" "csv" c4Lines :=
  c4_inference_ignores_type_hint "data/a.txt" "txt" "csv" c4Lines
    (by decide) (by decide)

/-- C5 counterexample: the claim says every exported container yields
exactly total_row_count - 1 newlines.  A container of two rows, each a
single empty field, renders per batch to newlines only; `strip('\n')`
removes them all, so the export is empty: 0 newlines where the claim
demands 2 - 1 = 1. -/
theorem c5_counterexample :
    convert_parquet_to_text_in_chunks [[[]], [[]]] "csv" = .ok [] ∧
    ([] : Line).count '\n' = 0 ∧
    ([[[]], [[]]] : List Row).length - 1 = 1 ∧
    (0 : Nat) ≠ 1 :=
  ⟨rfl, rfl, rfl, by decide⟩

/-- C5 (amended): provided every row renders to a non-empty newline-free
line, the batch loop writes exactly total_row_count - 1 newlines and no
trailing newline, for any batching; the per-batch `strip('\n')` removes all
leading and trailing newline characters, which under this proviso coincides
with removing the single trailing newline the renderer appends. -/
theorem c5_newline_discipline_nonempty_rows (sep : Char)
    (bs : List (List Row)) (hbs : bs ≠ []) (hb : ∀ b ∈ bs, b ≠ [])
    (hr : ∀ b ∈ bs, ∀ r ∈ b,
      renderRow sep r ≠ [] ∧ (renderRow sep r).count '\n' = 0) :
    (writeBatches sep true bs).count '\n' = (bs.map List.length).sum - 1 ∧
    (writeBatches sep true bs).getLast? ≠ some '\n' := by
  rw [writeBatches_good sep bs hb hr]
  have hparts := goodRows_flatten_map sep bs hr
  have hflat : bs.flatten ≠ [] := by
    rw [List.flatten_ne_nil_iff]
    cases bs with
    | nil => exact absurd rfl hbs
    | cons b bs2 =>
      exact ⟨b, List.mem_cons_self b bs2, hb b (List.mem_cons_self b bs2)⟩
  have hpne : bs.flatten.map (renderRow sep) ≠ [] := by
    simpa [List.map_eq_nil_iff] using hflat
  constructor
  · rw [count_joinWith_nl _ hpne (fun p hp => (hparts p hp).2), List.length_map,
      List.length_flatten]
  · exact joinWith_getLast?_nonNl _ hpne hparts

/-- Witness for the amended C5 theorem: two batches of one single-field row
each export to one newline (2 - 1) and no trailing newline. -/
theorem c5_witness :
    (writeBatches ',' true [[[['a']]], [[['b']]]]).count '\n'
      = ([[[['a']]], [[['b']]]].map List.length).sum - 1 ∧
    (writeBatches ',' true [[[['a']]], [[['b']]]]).getLast? ≠ some '\n' :=
  c5_newline_discipline_nonempty_rows ',' [[[['a']]], [[['b']]]]
    (by decide) (by decide) (by decide)

/-- C6 counterexample: the claim says a truncated archive fails
decompression and leaves no partial output file.  Decompressing an archive
truncated to half its length does fail, but the output file — created
before reading and never removed by the error path — is still present in
the filesystem afterwards, holding the partially decompressed bytes. -/
theorem c6_counterexample :
    (decompress_with_zstd c6FS "customer.zstd" "customer.parquet").fst
      = .error "ZstdError: zstd decompress error: Data corruption detected" ∧
    (decompress_with_zstd c6FS "customer.zstd" "customer.parquet").snd
        "customer.parquet" ≠ none :=
  ⟨rfl, by decide⟩

/-- C6 (amended): for every archive whose final frame is incomplete (as
after truncation to half its byte length), decompression raises a
decompression error, and the partially written output file remains on disk
with the decodable prefix — the code performs no cleanup on failure. -/
theorem c6_truncated_archive_error_keeps_output (fs : FS) (p : List Nat)
    (cf outf : String) (h : fs cf = some (.archive p false)) :
    (decompress_with_zstd fs cf outf).fst
      = .error "ZstdError: zstd decompress error: Data corruption detected" ∧
    (decompress_with_zstd fs cf outf).snd outf = some (.bytes p) := by
  simp [decompress_with_zstd, h, fsSet]

/-- Witness for the amended C6 theorem on the concrete truncated archive:
the error is raised and the output file holds the partial payload. -/
theorem c6_witness :
    (decompress_with_zstd c6FS "customer.zstd" "out.parquet").fst
      = .error "ZstdError: zstd decompress error: Data corruption detected" ∧
    (decompress_with_zstd c6FS "customer.zstd" "out.parquet").snd "out.parquet"
      = some (.bytes [10, 20]) :=
  c6_truncated_archive_error_keeps_output c6FS [10, 20] "customer.zstd"
    "out.parquet" (by decide)

/-- C7: the claim says a failing step is logged and the orchestrator moves
on, with no step downstream of the failure running for that file.  In
src/main.py the converter's `except` clause has no `raise`, so when the
conversion body fails the caller sees a normal return and `compressmain`
proceeds to run the compression step for the same file — a downstream step
runs after the failed step (the module copy of the converter, by contrast,
re-raises). -/
theorem c7_conversion_error_swallowed_downstream_runs :
    (compressmainFile ⟨.ok, .raises "disk full", .raises "FileNotFoundError"⟩
        "customer.tbl").fst = ["read", "convert", "compress"] ∧
    "compress" ∈ (compressmainFile
        ⟨.ok, .raises "disk full", .raises "FileNotFoundError"⟩
        "customer.tbl").fst ∧
    (convert_to_columnar_main (.raises "disk full")).fst = .ok () ∧
    (convert_to_columnar_module (.raises "disk full")).fst = .error "disk full" :=
  ⟨rfl, by decide, rfl, rfl⟩

/-- C8: the claim says the archive is named basename.ext.zstd, keeping the
original extension.  `compressmain` strips the extension with
`os.path.splitext` before appending ".zstd", so "customer.tbl" is archived
as "customer.zstd", not "customer.tbl.zstd"; `decompressmain` own parsing
recovers the extension "tbl" from the claimed name but the empty string
from the actual one. -/
theorem c8_archive_name_drops_extension :
    compressedName "customer.tbl".toList = "customer.zstd".toList ∧
    compressedName "customer.tbl".toList ≠ "customer.tbl.zstd".toList ∧
    decompressParsedNames "customer.zstd".toList = ("customer".toList, []) ∧
    decompressParsedNames "customer.tbl.zstd".toList
      = ("customer".toList, "tbl".toList) := by
  refine ⟨by decide, by decide, by decide, by decide⟩

/-- C9: the claim says the preview sample is the next 20 consecutive lines
after the first.  The comprehension calls `readline` once in its condition
and again in its element, so on a five-line file the sample is lines 3 and
5 — every second line — not the consecutive lines 2 through 5. -/
theorem c9_preview_samples_alternate_lines :
    previewLoop (c9Lines.drop 1) 20 = ["L3\n".toList, "L5\n".toList] ∧
    previewLoop (c9Lines.drop 1) 20 ≠ c9Lines.drop 1 :=
  ⟨rfl, by decide⟩

/-- C10: compressing a zero-byte input raises `ZeroDivisionError` in the
ratio computation, and only after the output archive file has been created
(both variants) and, in the src/main.py variant, after the statistics
counters were incremented — the failure is non-atomic exactly as
claimed. -/
theorem c10_empty_input_nonatomic_failure (fs : FS) (stats : CompressionStats)
    (inp outp : String) (hin : fs inp = some (.bytes []))
    (hio : inp ≠ outp) :
    (compress_with_zstd fs inp outp).fst
      = .error "ZeroDivisionError: division by zero" ∧
    (compress_with_zstd fs inp outp).snd outp = some (.archive [] true) ∧
    (compress_with_zstd_main fs stats inp outp).fst
      = .error "ZeroDivisionError: division by zero" ∧
    (compress_with_zstd_main fs stats inp outp).snd.fst outp
      = some (.archive [] true) ∧
    (compress_with_zstd_main fs stats inp outp).snd.snd.file_count
      = stats.file_count + 1 ∧
    (compress_with_zstd_main fs stats inp outp).snd.snd.total_compressed
      = stats.total_compressed + 13 := by
  simp [compress_with_zstd, compress_with_zstd_main, hin, fsSet, hio,
    contentBytes, fileSize]

/-- Witness for C10 at a concrete filesystem holding one empty input
file. -/
theorem c10_witness :
    (compress_with_zstd c10FS "lineitem.parquet" "lineitem.zstd").fst
      = .error "ZeroDivisionError: division by zero" ∧
    (compress_with_zstd c10FS "lineitem.parquet" "lineitem.zstd").snd
        "lineitem.zstd" = some (.archive [] true) ∧
    (compress_with_zstd_main c10FS ⟨0, 0, 0⟩ "lineitem.parquet"
        "lineitem.zstd").fst = .error "ZeroDivisionError: division by zero" ∧
    (compress_with_zstd_main c10FS ⟨0, 0, 0⟩ "lineitem.parquet"
        "lineitem.zstd").snd.fst "lineitem.zstd" = some (.archive [] true) ∧
    (compress_with_zstd_main c10FS ⟨0, 0, 0⟩ "lineitem.parquet"
        "lineitem.zstd").snd.snd.file_count = (0 : Nat) + 1 ∧
    (compress_with_zstd_main c10FS ⟨0, 0, 0⟩ "lineitem.parquet"
        "lineitem.zstd").snd.snd.total_compressed = (0 : Nat) + 13 :=
  c10_empty_input_nonatomic_failure c10FS ⟨0, 0, 0⟩ "lineitem.parquet"
    "lineitem.zstd" (by decide) (by decide)

/-- Under the round-trip provisos — exactly `n` fields and every field a
fixed point of NA conversion — `read_csv` row parsing is the plain split:
no token is converted and no padding is added. -/
theorem parseRow_eq_pySplit (n : Nat) (sep : Char) (l : Line)
    (hcount : (pySplit sep l).length = n)
    (hna : ∀ f ∈ pySplit sep l, parseField f = f) :
    parseRow n sep l = pySplit sep l := by
  have hmap : (pySplit sep l).map parseField = pySplit sep l := by
    rw [List.map_congr_left (fun a ha => hna a ha)]
    simp
  show ((pySplit sep l).map parseField).take n
      ++ List.replicate (n - ((pySplit sep l).map parseField).length) []
      = pySplit sep l
  rw [hmap, ← hcount, List.take_length, Nat.sub_self, List.replicate_zero,
    List.append_nil]

/-- C1 counterexample: the claim says the round-trip preserves field
contents exactly for every valid input.  The valid two-line pipe file
"NA|x" / "b|c" — non-empty lines, no newline, quote or escape characters,
a consistent two-field layout — round-trips to "|x" / "b|c": `read_csv`
converts the field "NA" (a default NA token) to NaN and `to_csv` re-renders
it as the empty string, altering the field contents. -/
theorem c1_counterexample :
    (forwardContainer 2 '|' "NA|x\nb|c".toList).bind
        (fun c => convert_parquet_to_text_in_chunks c "tbl")
      = .ok "|x\nb|c".toList ∧
    "|x\nb|c".toList ≠ "NA|x\nb|c".toList :=
  ⟨rfl, by decide⟩

/-- C1 (amended): round-trip fidelity of the converter pair on the inputs
the reader parses losslessly.  For every valid delimited text in canonical
line-ending form — non-empty lines free of newline, quote and escape
characters (the fragment on which the split model of the csv dialect is
exact), every line carrying exactly the inferred column count of fields,
and every field a fixed point of pandas NA conversion (no field is a
non-empty default NA token; empty fields re-render as empty) — parsing the
text into 50000-row chunks, writing them to the columnar container, and
exporting the container back to text with the same target type reproduces
the text exactly, with field contents and field order preserved.  Fields
equal to an NA token are instead replaced by the empty string, as the
counterexample shows. -/
theorem c1_na_free_roundtrip (ft : String) (sep : Char) (n : Nat)
    (lines : List Line) (hft : sepForType ft = .ok sep) (hne : lines ≠ [])
    (hl : ∀ l ∈ lines, l ≠ [] ∧ '\n' ∉ l ∧ '"' ∉ l ∧ '\\' ∉ l)
    (hcount : ∀ l ∈ lines, (pySplit sep l).length = n)
    (hna : ∀ l ∈ lines, ∀ f ∈ pySplit sep l, parseField f = f) :
    (forwardContainer n sep (joinWith ['\n'] lines)).bind
        (fun c => convert_parquet_to_text_in_chunks c ft)
      = .ok (joinWith ['\n'] lines) := by
  have hsplitnl : pySplit '\n' (joinWith ['\n'] lines) = lines :=
    pySplit_joinWith '\n' lines hne (fun l hlm => (hl l hlm).2.1)
  have hfilter : (pySplit '\n' (joinWith ['\n'] lines)).filter
      (fun l => !l.isEmpty) = lines := by
    rw [hsplitnl, List.filter_eq_self]
    intro a ha
    cases a with
    | nil => exact absurd rfl (hl _ ha).1
    | cons c cs => rfl
  have hrows : parseRows n sep (joinWith ['\n'] lines)
      = lines.map (pySplit sep) := by
    unfold parseRows
    rw [hfilter]
    exact List.map_congr_left (fun l hlm =>
      parseRow_eq_pySplit n sep l (hcount l hlm) (hna l hlm))
  have hrowsne : lines.map (pySplit sep) ≠ [] := by
    simpa [List.map_eq_nil_iff] using hne
  have hchunksne : chunksOf 50000 (lines.map (pySplit sep)) ≠ [] :=
    chunksOf_ne_nil _ _ hrowsne
  have hcontainer :
      convert_to_columnar_in_chunks (chunksOf 50000 (lines.map (pySplit sep)))
        = .ok (lines.map (pySplit sep)) := by
    cases hc : chunksOf 50000 (lines.map (pySplit sep)) with
    | nil => exact absurd hc hchunksne
    | cons ch chs =>
      have harm : convert_to_columnar_in_chunks (ch :: chs)
          = .ok (ch :: chs).flatten := rfl
      rw [harm, ← hc, chunksOf_flatten]
  unfold forwardContainer
  rw [hrows, hcontainer]
  show convert_parquet_to_text_in_chunks (lines.map (pySplit sep)) ft
      = .ok (joinWith ['\n'] lines)
  unfold convert_parquet_to_text_in_chunks
  rw [hft]
  show Except.ok (writeBatches sep true (chunksOf 50000 (lines.map (pySplit sep))))
      = Except.ok (joinWith ['\n'] lines)
  refine congrArg Except.ok ?_
  have hb : ∀ b ∈ chunksOf 50000 (lines.map (pySplit sep)), b ≠ [] :=
    fun b hbm => chunksOfFuel_mem_ne_nil 50000 _ _ b hbm
  have hrend : ∀ b ∈ chunksOf 50000 (lines.map (pySplit sep)), ∀ r ∈ b,
      renderRow sep r ≠ [] ∧ (renderRow sep r).count '\n' = 0 := by
    intro b hbm r hrm
    have hrrows : r ∈ lines.map (pySplit sep) :=
      chunksOfFuel_mem_mem 50000 _ _ b r hbm hrm
    obtain ⟨l, hlm, hlr⟩ := List.mem_map.mp hrrows
    have hrender : renderRow sep r = l := by
      rw [← hlr]
      exact joinWith_pySplit sep l
    rw [hrender]
    exact ⟨(hl l hlm).1, List.count_eq_zero.mpr (hl l hlm).2.1⟩
  rw [writeBatches_good sep _ hb hrend, chunksOf_flatten, List.map_map]
  refine congrArg (joinWith ['\n']) ?_
  calc lines.map (renderRow sep ∘ pySplit sep)
      = lines.map id := List.map_congr_left (fun l _ => joinWith_pySplit sep l)
    _ = lines := List.map_id lines

/-- Witness for the amended C1 theorem on the three-line pipe-separated
scenario file, parsed against its three inferred columns. -/
theorem c1_witness :
    (forwardContainer 3 '|' (joinWith ['\n'] c1Lines)).bind
        (fun c => convert_parquet_to_text_in_chunks c "tbl")
      = .ok (joinWith ['\n'] c1Lines) :=
  c1_na_free_roundtrip "tbl" '|' 3 c1Lines rfl (by decide) (by decide)
    (by decide) (by decide)
